import Mathlib

/-!
Shallow embedding of the bwsc-cacheproxy core (src/server/client.py) and
verification of its natural-language specification.

Modelling conventions:
* Python `dict[str, ...]` becomes an association list with lookup (`alookup`)
  and insert-or-replace (`ainsert`), matching Python's in-place update and
  insertion-order preservation.
* Wall-clock time (`time.time()`) is passed in as an explicit `now : Nat`.
* The upstream HTTP fetch (`requests.get`) is an oracle parameter
  `fetch : Option SecretResponse`; `none` models a raised
  `requests.exceptions.RequestException` (transport error).
* The Prometheus metric ticks (`tick_cache_hits` / `tick_cache_miss`) become
  event lists `hits` / `misses` of endpoint kinds, appended in call order.
* Each operation result also carries `fetches`, the number of upstream fetch
  attempts the operation performed, so fetch-counting properties are statable.
-/

namespace Bwsc

/-- Model of the `SecretResponse` dataclass: the body text and HTTP status of a fetch. -/
structure SecretResponse where
  value : String
  status_code : Nat
deriving DecidableEq

/-- Model of the `CachedSecret` dataclass: a cached response and the time it was stored. -/
structure CachedSecret where
  value : SecretResponse
  last_requested : Nat
deriving DecidableEq

/-- Model of `CacheStats` (fields as constructed in `BwscCachedClient.stats`). -/
structure CacheStats where
  secret_cache_size : Nat
  keymap_cache_size : Nat
deriving DecidableEq

/-- Environment-derived configuration read at module import time. -/
structure Config where
  SECRET_TTL : Nat
  KEEP_ON_CONN_FAIL : Bool
  BACKGROUND_REFRESH : Bool
deriving DecidableEq

/-- Association-list lookup, modelling `d[k]` / `k in d` on a Python dict. -/
def alookup {β : Type} : List (String × β) → String → Option β
  | [], _ => none
  | (k, v) :: rest, key => if k = key then some v else alookup rest key

/-- Association-list insert-or-replace, modelling `d[k] = v` on a Python dict. -/
def ainsert {β : Type} : List (String × β) → String → β → List (String × β)
  | [], key, v => [(key, v)]
  | (k, w) :: rest, key, v =>
    if k = key then (key, v) :: rest else (k, w) :: ainsert rest key v

/-- The cache map `endpoint_cache : dict[str, CachedSecret]`. -/
abbrev Cache := List (String × CachedSecret)

/-- State of one `BwscCachedClient`: its token, its entry map, and the
metric events it has emitted (hit / miss ticks, labelled by endpoint kind). -/
structure BwscCachedClient where
  token : String
  endpoint_cache : Cache
  hits : List String
  misses : List String
deriving DecidableEq

/-- Model of `BwscCachedClient.__init__`: fresh client for a token, empty cache. -/
def initClient (token : String) : BwscCachedClient :=
  ⟨token, [], [], []⟩

/-- The cache key built by both `refresh_endpoint` and `get_endpoint`:
`url = f"{endpoint}/{secret_id}"`. -/
def mk_url (endpoint secret_id : String) : String :=
  endpoint ++ "/" ++ secret_id

/-- Result of a cache operation: the returned `SecretResponse`, the updated
client state, and how many upstream fetch attempts were made. -/
structure OpResult where
  ret : SecretResponse
  state : BwscCachedClient
  fetches : Nat
deriving DecidableEq

/-- The synthesized failure value
`SecretResponse(value="cannot connect to bwsc", status_code=500)`. -/
def failResponse : SecretResponse :=
  ⟨"cannot connect to bwsc", 500⟩

/-- The value `refresh_endpoint` ends up with: the fetched response on
success; on a transport error, the prior cached value when
`KEEP_ON_CONN_FAIL` is set and the key is present, else `failResponse`. -/
def refresh_value (cfg : Config) (cache : Cache) (fetch : Option SecretResponse)
    (url : String) : SecretResponse :=
  match fetch with
  | some r => r
  | none =>
    if cfg.KEEP_ON_CONN_FAIL then
      match alookup cache url with
      | some prior => prior.value
      | none => failResponse
    else failResponse

/-- Model of `BwscCachedClient.refresh_endpoint`: tick a cache miss for the kind,
attempt one upstream fetch, store the resulting value with a fresh
timestamp, and return it. -/
def BwscCachedClient.refresh_endpoint (cfg : Config) (st : BwscCachedClient)
    (fetch : Option SecretResponse) (now : Nat) (endpoint secret_id : String) :
    OpResult :=
  ⟨refresh_value cfg st.endpoint_cache fetch (mk_url endpoint secret_id),
   { st with
     misses := st.misses ++ [endpoint],
     endpoint_cache :=
       ainsert st.endpoint_cache (mk_url endpoint secret_id)
         ⟨refresh_value cfg st.endpoint_cache fetch (mk_url endpoint secret_id), now⟩ },
   1⟩

/-- Model of `BwscCachedClient.get_endpoint`: serve from cache when the entry is fresh
(`last_requested + SECRET_TTL > now`) or background refresh is enabled,
ticking a hit; otherwise fall through to `refresh_endpoint`. -/
def BwscCachedClient.get_endpoint (cfg : Config) (st : BwscCachedClient)
    (fetch : Option SecretResponse) (now : Nat) (endpoint secret_id : String) :
    OpResult :=
  match alookup st.endpoint_cache (mk_url endpoint secret_id) with
  | some cached_secret =>
    if cached_secret.last_requested + cfg.SECRET_TTL > now
        || cfg.BACKGROUND_REFRESH then
      ⟨cached_secret.value, { st with hits := st.hits ++ [endpoint] }, 0⟩
    else
      BwscCachedClient.refresh_endpoint cfg st fetch now endpoint secret_id
  | none => BwscCachedClient.refresh_endpoint cfg st fetch now endpoint secret_id

/-- Predicate `listStartsWith pat l` : does `l` start with `pat`? (Helper for Python's
substring containment `pat in s`.) -/
def listStartsWith : List Char → List Char → Bool
  | [], _ => true
  | _ :: _, [] => false
  | p :: ps, c :: cs => p == c && listStartsWith ps cs

/-- Predicate `listHasSub pat l` : does `pat` occur as a contiguous sublist of `l`?
(Python's `pat in s` on strings.) -/
def listHasSub (pat : List Char) : List Char → Bool
  | [] => pat.isEmpty
  | c :: cs => listStartsWith pat (c :: cs) || listHasSub pat cs

/-- Python's substring test `pat in s`. -/
def strIn (pat s : String) : Bool :=
  listHasSub pat.data s.data

/-- One step of the counting loop in `BwscCachedClient.stats`: accumulator is
`(secret_id_count, secret_key_count)`. -/
def statsStep (acc : Nat × Nat) (p : String × CachedSecret) : Nat × Nat :=
  if p.2.value.status_code = 200 then
    if strIn "key/" p.1 then (acc.1, acc.2 + 1)
    else if strIn "id/" p.1 then (acc.1 + 1, acc.2)
    else acc
  else acc

/-- Model of `BwscCachedClient.stats`: count current entries with status 200, keyed by
whether the url contains `"key/"` (checked first) or `"id/"`. -/
def BwscCachedClient.stats (st : BwscCachedClient) : CacheStats :=
  ⟨(st.endpoint_cache.foldl statsStep (0, 0)).1,
   (st.endpoint_cache.foldl statsStep (0, 0)).2⟩

/-- Model of `BwscCachedClient.reset_cache`: snapshot stats, then replace the cache map
with an empty one; return the pre-reset snapshot. -/
def BwscCachedClient.reset_cache (st : BwscCachedClient) :
    CacheStats × BwscCachedClient :=
  (BwscCachedClient.stats st, { st with endpoint_cache := [] })

/-- Python's `s.split(sep)` on a single-character separator, over char lists:
splits at every occurrence, keeping empty chunks. -/
def splitChars (sep : Char) : List Char → List (List Char)
  | [] => [[]]
  | c :: cs =>
    match splitChars sep cs with
    | [] => [[]]
    | h :: t => if c == sep then [] :: h :: t else (c :: h) :: t

/-- Python's `url.split("/")`. -/
def pySplit (s : String) (sep : Char) : List String :=
  (splitChars sep s.data).map (fun l => ⟨l⟩)

/-- The destructuring `endpoint, secret_id = url.split("/")` in
`_refresh_loop`: succeeds only when the split has exactly two parts;
`none` models the `ValueError` Python raises otherwise. -/
def loop_split_url (url : String) : Option (String × String) :=
  match pySplit url '/' with
  | [a, b] => some (a, b)
  | _ => none

/-- Model of `StatsResponse` (fields as constructed in `ClientManager.stats`);
`client_stats` is the digest-keyed per-client map. -/
structure StatsResponse where
  num_clients : Nat
  client_stats : List (String × CacheStats)
  total_stats : CacheStats
deriving DecidableEq

/-- State of the `ClientManager`: digest-keyed map of clients. -/
structure ClientManager where
  clients : List (String × BwscCachedClient)
deriving DecidableEq

/-- Model of `ClientManager.get_client_by_token`, with the digest function
(`generate_hash`, a cryptographic hash) passed explicitly: return the
existing client for the token's digest, or create and register a fresh one. -/
def ClientManager.get_client_by_token (hash : String → String)
    (m : ClientManager) (token : String) : BwscCachedClient × ClientManager :=
  match alookup m.clients (hash token) with
  | some c => (c, m)
  | none =>
    (initClient token, ⟨ainsert m.clients (hash token) (initClient token)⟩)

/-- The `/reset` flow in server.py: resolve the caller's client by token,
reset its cache, store the updated client back. -/
def mgr_reset (hash : String → String) (m : ClientManager) (token : String) :
    CacheStats × ClientManager :=
  match ClientManager.get_client_by_token hash m token with
  | (c, m1) =>
    match BwscCachedClient.reset_cache c with
    | (before, c2) => (before, ⟨ainsert m1.clients (hash token) c2⟩)

/-- The `/id/...` and `/key/...` flow in server.py: resolve the caller's
client by token, perform `get_endpoint` on it, store the updated client. -/
def mgr_get (hash : String → String) (m : ClientManager) (token : String)
    (cfg : Config) (fetch : Option SecretResponse) (now : Nat)
    (endpoint secret_id : String) : SecretResponse × ClientManager :=
  match ClientManager.get_client_by_token hash m token with
  | (c, m1) =>
    match BwscCachedClient.get_endpoint cfg c fetch now endpoint secret_id with
    | r => (r.ret, ⟨ainsert m1.clients (hash token) r.state⟩)

/-- One step of the totals loop in `ClientManager.stats`: accumulator is
`(client_stats, total_secret_id, total_secret_key)`. -/
def mgrStatsStep (acc : List (String × CacheStats) × Nat × Nat)
    (p : String × BwscCachedClient) : List (String × CacheStats) × Nat × Nat :=
  (acc.1 ++ [(p.1, BwscCachedClient.stats p.2)],
   acc.2.1 + (BwscCachedClient.stats p.2).secret_cache_size,
   acc.2.2 + (BwscCachedClient.stats p.2).keymap_cache_size)

/-- Model of `ClientManager.stats`: per-client stats keyed by digest, plus pointwise
totals over all registered clients. -/
def ClientManager.stats (m : ClientManager) : StatsResponse :=
  ⟨m.clients.length,
   (m.clients.foldl mgrStatsStep ([], 0, 0)).1,
   ⟨(m.clients.foldl mgrStatsStep ([], 0, 0)).2.1,
    (m.clients.foldl mgrStatsStep ([], 0, 0)).2.2⟩⟩

/-! ### Association-list lemmas -/

theorem alookup_ainsert_self {β : Type} (l : List (String × β)) (k : String)
    (v : β) : alookup (ainsert l k v) k = some v := by
  induction l with
  | nil => simp [ainsert, alookup]
  | cons p rest ih =>
    obtain ⟨a, b⟩ := p
    by_cases h : a = k
    · simp [ainsert, alookup, h]
    · simp [ainsert, alookup, h, ih]

theorem alookup_ainsert_ne {β : Type} (l : List (String × β)) (k k2 : String)
    (v : β) (h : k ≠ k2) : alookup (ainsert l k v) k2 = alookup l k2 := by
  induction l with
  | nil => simp [ainsert, alookup, h]
  | cons p rest ih =>
    obtain ⟨a, b⟩ := p
    by_cases ha : a = k
    · simp [ainsert, alookup, ha, h]
    · by_cases ha2 : a = k2
      · simp [ainsert, alookup, ha, ha2, Ne.symm h]
      · simp [ainsert, alookup, ha, ha2, ih]

/-! ### Claim theorems -/

/-- C7: `reset_cache` returns the stats snapshot as it was immediately before
clearing and replaces the cache map with an empty one; `stats` after any
reset reports zero for both kind counts, and a second consecutive
`reset_cache` returns the all-zero snapshot. -/
theorem reset_returns_prior_stats_then_zero (st : BwscCachedClient) :
    (st.reset_cache).1 = st.stats ∧
    (st.reset_cache).2.endpoint_cache = [] ∧
    ((st.reset_cache).2).stats = ⟨0, 0⟩ ∧
    (((st.reset_cache).2).reset_cache).1 = ⟨0, 0⟩ :=
  ⟨rfl, rfl, rfl, rfl⟩

/-- C9: every invocation of `refresh_endpoint` — with any fetch outcome,
including a transport failure recovered by fail-open — records exactly one
cache-miss event for the endpoint kind and no hit event, and performs
exactly one upstream fetch attempt. -/
theorem refresh_ticks_exactly_one_miss (cfg : Config) (st : BwscCachedClient)
    (fetch : Option SecretResponse) (now : Nat) (endpoint secret_id : String) :
    (st.refresh_endpoint cfg fetch now endpoint secret_id).state.misses =
      st.misses ++ [endpoint] ∧
    (st.refresh_endpoint cfg fetch now endpoint secret_id).state.hits =
      st.hits ∧
    (st.refresh_endpoint cfg fetch now endpoint secret_id).fetches = 1 :=
  ⟨rfl, rfl, rfl⟩

/-- C4: with background refresh enabled, `get_endpoint` returns any existing
entry and ticks a hit regardless of the entry's age, with no fetch; a
synchronous refresh happens exactly when no entry exists for the key. -/
theorem proactive_get_spec (cfg : Config) (st : BwscCachedClient)
    (fetch : Option SecretResponse) (now : Nat) (endpoint secret_id : String)
    (hbg : cfg.BACKGROUND_REFRESH = true) :
    (∀ cs, alookup st.endpoint_cache (mk_url endpoint secret_id) = some cs →
      st.get_endpoint cfg fetch now endpoint secret_id =
        ⟨cs.value, { st with hits := st.hits ++ [endpoint] }, 0⟩) ∧
    (alookup st.endpoint_cache (mk_url endpoint secret_id) = none →
      st.get_endpoint cfg fetch now endpoint secret_id =
        st.refresh_endpoint cfg fetch now endpoint secret_id ∧
      (st.refresh_endpoint cfg fetch now endpoint secret_id).fetches = 1) := by
  constructor
  · intro cs hcs
    simp [BwscCachedClient.get_endpoint, hcs, hbg]
  · intro hnone
    exact ⟨by simp [BwscCachedClient.get_endpoint, hnone], rfl⟩

/-- Concrete client used by the witnesses: one entry for key `id/abc`,
fetched at time 0 with value `secretA` and status 200. -/
def wClient : BwscCachedClient :=
  ⟨"tok", [(mk_url "id" "abc", ⟨⟨"secretA", 200⟩, 0⟩)], [], []⟩

/-- Witness for C4 at a concrete expired entry (age 1000 with TTL 15). -/
theorem proactive_get_spec_witness :
    BwscCachedClient.get_endpoint ⟨15, false, true⟩ wClient none 1000 "id" "abc" =
      ⟨⟨"secretA", 200⟩, { wClient with hits := wClient.hits ++ ["id"] }, 0⟩ :=
  (proactive_get_spec ⟨15, false, true⟩ wClient none 1000 "id" "abc" rfl).1
    ⟨⟨"secretA", 200⟩, 0⟩ (by decide)

/-- C1: in reactive mode, a fresh entry (`now - fetchedAt < TTL`) is served
from cache with one hit tick and no fetch, and the state is otherwise
unchanged; an expired or absent entry routes to `refresh_endpoint`, which
ticks one miss and performs exactly one upstream fetch attempt. -/
theorem reactive_get_spec (cfg : Config) (st : BwscCachedClient)
    (fetch : Option SecretResponse) (now : Nat) (endpoint secret_id : String)
    (hbg : cfg.BACKGROUND_REFRESH = false) :
    (∀ cs, alookup st.endpoint_cache (mk_url endpoint secret_id) = some cs →
      cs.last_requested ≤ now →
      ((now - cs.last_requested < cfg.SECRET_TTL →
          st.get_endpoint cfg fetch now endpoint secret_id =
            ⟨cs.value, { st with hits := st.hits ++ [endpoint] }, 0⟩) ∧
       (cfg.SECRET_TTL ≤ now - cs.last_requested →
          st.get_endpoint cfg fetch now endpoint secret_id =
            st.refresh_endpoint cfg fetch now endpoint secret_id ∧
          (st.refresh_endpoint cfg fetch now endpoint secret_id).state.misses =
            st.misses ++ [endpoint] ∧
          (st.refresh_endpoint cfg fetch now endpoint secret_id).fetches = 1))) ∧
    (alookup st.endpoint_cache (mk_url endpoint secret_id) = none →
      st.get_endpoint cfg fetch now endpoint secret_id =
        st.refresh_endpoint cfg fetch now endpoint secret_id ∧
      (st.refresh_endpoint cfg fetch now endpoint secret_id).state.misses =
        st.misses ++ [endpoint] ∧
      (st.refresh_endpoint cfg fetch now endpoint secret_id).fetches = 1) := by
  constructor
  · intro cs hcs hle
    constructor
    · intro hfresh
      have hcond : cs.last_requested + cfg.SECRET_TTL > now := by omega
      simp [BwscCachedClient.get_endpoint, hcs, hcond]
    · intro hexp
      have hcond : ¬ cs.last_requested + cfg.SECRET_TTL > now := by omega
      exact ⟨by simp [BwscCachedClient.get_endpoint, hcs, hcond, hbg], rfl, rfl⟩
  · intro hnone
    exact ⟨by simp [BwscCachedClient.get_endpoint, hnone], rfl, rfl⟩

/-- Witness for C1: with TTL 15, at time 5 the entry fetched at 0 is served
from cache; at time 20 the same key routes to `refresh_endpoint`. -/
theorem reactive_get_spec_witness :
    BwscCachedClient.get_endpoint ⟨15, false, false⟩ wClient none 5 "id" "abc" =
      ⟨⟨"secretA", 200⟩, { wClient with hits := wClient.hits ++ ["id"] }, 0⟩ ∧
    BwscCachedClient.get_endpoint ⟨15, false, false⟩ wClient none 20 "id" "abc" =
      BwscCachedClient.refresh_endpoint ⟨15, false, false⟩ wClient none 20 "id" "abc" :=
  ⟨((reactive_get_spec ⟨15, false, false⟩ wClient none 5 "id" "abc" rfl).1
      ⟨⟨"secretA", 200⟩, 0⟩ (by decide) (by decide)).1 (by decide),
   (((reactive_get_spec ⟨15, false, false⟩ wClient none 20 "id" "abc" rfl).1
      ⟨⟨"secretA", 200⟩, 0⟩ (by decide) (by decide)).2 (by decide)).1⟩

/-- C2: with fail-open (`KEEP_ON_CONN_FAIL`) enabled and a prior entry
present, a refresh whose upstream fetch fails with a transport error stores
and returns the prior entry's value and status unchanged, with the stored
entry's timestamp set to `now`; any subsequent `get_endpoint` within the
refreshed TTL window — regardless of how stale the old entry had been —
returns the same value and status with no upstream fetch. -/
theorem fail_open_spec (cfg : Config) (st : BwscCachedClient) (now : Nat)
    (endpoint secret_id : String) (prior : CachedSecret)
    (hko : cfg.KEEP_ON_CONN_FAIL = true)
    (hprior : alookup st.endpoint_cache (mk_url endpoint secret_id) = some prior) :
    (st.refresh_endpoint cfg none now endpoint secret_id).ret = prior.value ∧
    alookup (st.refresh_endpoint cfg none now endpoint secret_id).state.endpoint_cache
        (mk_url endpoint secret_id) = some ⟨prior.value, now⟩ ∧
    (∀ now2 fetch2, now2 < now + cfg.SECRET_TTL →
      (((st.refresh_endpoint cfg none now endpoint secret_id).state).get_endpoint
          cfg fetch2 now2 endpoint secret_id).ret = prior.value ∧
      (((st.refresh_endpoint cfg none now endpoint secret_id).state).get_endpoint
          cfg fetch2 now2 endpoint secret_id).fetches = 0) := by
  have hval : refresh_value cfg st.endpoint_cache none (mk_url endpoint secret_id) =
      prior.value := by
    simp [refresh_value, hko, hprior]
  refine ⟨?_, ?_, ?_⟩
  · simp [BwscCachedClient.refresh_endpoint, hval]
  · simp [BwscCachedClient.refresh_endpoint, hval, alookup_ainsert_self]
  · intro now2 fetch2 h2
    have hlook : alookup
        (st.refresh_endpoint cfg none now endpoint secret_id).state.endpoint_cache
        (mk_url endpoint secret_id) = some ⟨prior.value, now⟩ := by
      simp [BwscCachedClient.refresh_endpoint, hval, alookup_ainsert_self]
    have hcond : now + cfg.SECRET_TTL > now2 := by omega
    constructor <;> simp [BwscCachedClient.get_endpoint, hlook, hcond]

/-- Witness for C2: prior entry fetched at 0 with TTL 15, transport failure
at time 100 (long after expiry), follow-up read at time 105. -/
theorem fail_open_spec_witness :
    (BwscCachedClient.refresh_endpoint ⟨15, true, false⟩ wClient none 100 "id" "abc").ret =
      ⟨"secretA", 200⟩ ∧
    ((BwscCachedClient.refresh_endpoint ⟨15, true, false⟩ wClient none 100 "id" "abc").state.get_endpoint
        ⟨15, true, false⟩ none 105 "id" "abc").ret = ⟨"secretA", 200⟩ := by
  have h := fail_open_spec ⟨15, true, false⟩ wClient 100 "id" "abc"
    ⟨⟨"secretA", 200⟩, 0⟩ rfl (by decide)
  exact ⟨h.1, (h.2.2 105 none (by decide)).1⟩

/-- C3: when fail-open is disabled or no prior entry exists, a refresh whose
upstream fetch fails stores and returns the synthesized
`cannot connect to bwsc` response with status 500 and a fresh timestamp;
any repeated `get_endpoint` within the TTL window returns that synthesized
entry with no further upstream fetch. -/
theorem fail_closed_spec (cfg : Config) (st : BwscCachedClient) (now : Nat)
    (endpoint secret_id : String)
    (h : cfg.KEEP_ON_CONN_FAIL = false ∨
      alookup st.endpoint_cache (mk_url endpoint secret_id) = none) :
    (st.refresh_endpoint cfg none now endpoint secret_id).ret = failResponse ∧
    failResponse.status_code = 500 ∧
    alookup (st.refresh_endpoint cfg none now endpoint secret_id).state.endpoint_cache
        (mk_url endpoint secret_id) = some ⟨failResponse, now⟩ ∧
    (∀ now2 fetch2, now2 < now + cfg.SECRET_TTL →
      (((st.refresh_endpoint cfg none now endpoint secret_id).state).get_endpoint
          cfg fetch2 now2 endpoint secret_id).ret = failResponse ∧
      (((st.refresh_endpoint cfg none now endpoint secret_id).state).get_endpoint
          cfg fetch2 now2 endpoint secret_id).fetches = 0) := by
  have hval : refresh_value cfg st.endpoint_cache none (mk_url endpoint secret_id) =
      failResponse := by
    rcases h with hko | hnone
    · simp [refresh_value, hko]
    · simp [refresh_value, hnone]
  refine ⟨?_, rfl, ?_, ?_⟩
  · simp [BwscCachedClient.refresh_endpoint, hval]
  · simp [BwscCachedClient.refresh_endpoint, hval, alookup_ainsert_self]
  · intro now2 fetch2 h2
    have hlook : alookup
        (st.refresh_endpoint cfg none now endpoint secret_id).state.endpoint_cache
        (mk_url endpoint secret_id) = some ⟨failResponse, now⟩ := by
      simp [BwscCachedClient.refresh_endpoint, hval, alookup_ainsert_self]
    have hcond : now + cfg.SECRET_TTL > now2 := by omega
    constructor <;> simp [BwscCachedClient.get_endpoint, hlook, hcond]

/-- Witness for C3: empty cache, transport failure at time 0, repeated read
at time 1 within the 15-second TTL window. -/
theorem fail_closed_spec_witness :
    (BwscCachedClient.refresh_endpoint ⟨15, false, false⟩ (initClient "tok") none 0 "id" "abc").ret =
      failResponse ∧
    ((BwscCachedClient.refresh_endpoint ⟨15, false, false⟩ (initClient "tok") none 0 "id" "abc").state.get_endpoint
        ⟨15, false, false⟩ none 1 "id" "abc").fetches = 0 := by
  have h := fail_closed_spec ⟨15, false, false⟩ (initClient "tok") 0 "id" "abc"
    (Or.inl rfl)
  exact ⟨h.1, (h.2.2.2 1 none (by decide)).2⟩

/-- C6: distinct credentials resolve to distinct registry slots (the digest
is injective on credentials), so a `get` or `reset` performed with
credential A's token never changes credential B's client, and resetting A
empties exactly A's entry map. -/
theorem credential_isolation (hash : String → String) (m : ClientManager)
    (tA tB : String) (hinj : Function.Injective hash) (hne : tA ≠ tB) :
    (∀ cfg fetch now endpoint secret_id,
      alookup (mgr_get hash m tA cfg fetch now endpoint secret_id).2.clients
        (hash tB) = alookup m.clients (hash tB)) ∧
    alookup (mgr_reset hash m tA).2.clients (hash tB) =
      alookup m.clients (hash tB) ∧
    (∃ c, alookup (mgr_reset hash m tA).2.clients (hash tA) = some c ∧
      c.endpoint_cache = []) := by
  have hd : hash tA ≠ hash tB := fun hh => hne (hinj hh)
  refine ⟨?_, ?_, ?_⟩
  · intro cfg fetch now endpoint secret_id
    cases hA : alookup m.clients (hash tA) with
    | none =>
      simp [mgr_get, ClientManager.get_client_by_token, hA,
        alookup_ainsert_ne _ _ _ _ hd]
    | some c =>
      simp [mgr_get, ClientManager.get_client_by_token, hA,
        alookup_ainsert_ne _ _ _ _ hd]
  · cases hA : alookup m.clients (hash tA) with
    | none =>
      simp [mgr_reset, ClientManager.get_client_by_token, hA,
        BwscCachedClient.reset_cache, alookup_ainsert_ne _ _ _ _ hd]
    | some c =>
      simp [mgr_reset, ClientManager.get_client_by_token, hA,
        BwscCachedClient.reset_cache, alookup_ainsert_ne _ _ _ _ hd]
  · cases hA : alookup m.clients (hash tA) with
    | none =>
      refine ⟨{ initClient tA with endpoint_cache := [] }, ?_, rfl⟩
      simp [mgr_reset, ClientManager.get_client_by_token, hA,
        BwscCachedClient.reset_cache, alookup_ainsert_self]
    | some c =>
      refine ⟨{ c with endpoint_cache := [] }, ?_, rfl⟩
      simp [mgr_reset, ClientManager.get_client_by_token, hA,
        BwscCachedClient.reset_cache, alookup_ainsert_self]

/-- Witness for C6: with the identity digest, resetting the cache of token
`a` leaves token `b`'s registered client untouched and empties `a`'s map. -/
theorem credential_isolation_witness :
    alookup (mgr_reset id ⟨[("b", wClient)]⟩ "a").2.clients (id "b") =
      some wClient ∧
    (∃ c, alookup (mgr_reset id ⟨[("b", wClient)]⟩ "a").2.clients (id "a") =
      some c ∧ c.endpoint_cache = []) ∧
    alookup (mgr_get id ⟨[("b", wClient)]⟩ "a" ⟨15, false, false⟩ none 0 "id" "abc").2.clients
      (id "b") = some wClient := by
  have h := credential_isolation id ⟨[("b", wClient)]⟩ "a" "b"
    (fun x y hh => hh) (by decide)
  refine ⟨h.2.1.trans (by decide), h.2.2, ?_⟩
  exact (h.1 ⟨15, false, false⟩ none 0 "id" "abc").trans (by decide)

/-! ### Splitting lemmas for the background-refresh key format -/

theorem splitChars_ne_nil (sep : Char) (l : List Char) :
    splitChars sep l ≠ [] := by
  cases l with
  | nil => simp [splitChars]
  | cons c cs =>
    cases hcs : splitChars sep cs with
    | nil => simp [splitChars, hcs]
    | cons h t =>
      simp only [splitChars, hcs]
      split <;> simp

theorem splitChars_eq_single (sep : Char) (l : List Char) (h : sep ∉ l) :
    splitChars sep l = [l] := by
  induction l with
  | nil => rfl
  | cons c cs ih =>
    have hcne : (c == sep) = false := by
      refine beq_eq_false_iff_ne.mpr ?_
      intro hh
      exact h (by simp [hh])
    have h2 : sep ∉ cs := fun hm => h (List.mem_cons_of_mem _ hm)
    simp [splitChars, ih h2, hcne]

theorem splitChars_append (sep : Char) (l1 l2 : List Char) (h1 : sep ∉ l1) :
    splitChars sep (l1 ++ sep :: l2) = l1 :: splitChars sep l2 := by
  induction l1 with
  | nil =>
    cases hcs : splitChars sep l2 with
    | nil => exact absurd hcs (splitChars_ne_nil sep l2)
    | cons h t => simp [splitChars, hcs]
  | cons c cs ih =>
    have hcne : (c == sep) = false := by
      refine beq_eq_false_iff_ne.mpr ?_
      intro hh
      exact h1 (by simp [hh])
    have h2 : sep ∉ cs := fun hm => h1 (List.mem_cons_of_mem _ hm)
    simp [splitChars, ih h2, hcne]

theorem slash_data : ("/" : String).data = ['/'] := rfl

theorem mk_url_data (endpoint secret_id : String) :
    (mk_url endpoint secret_id).data = endpoint.data ++ '/' :: secret_id.data := by
  simp [mk_url, String.data_append, slash_data]

theorem pySplit_mk_url (endpoint secret_id : String)
    (he : ('/' : Char) ∉ endpoint.data) (hi : ('/' : Char) ∉ secret_id.data) :
    pySplit (mk_url endpoint secret_id) '/' = [endpoint, secret_id] := by
  simp [pySplit, mk_url_data, splitChars_append '/' _ _ he,
    splitChars_eq_single '/' _ hi]

/-- C10: the background refresh task destructures each stored key with
`url.split("/")` into exactly two parts; for slash-free kinds and
identifiers this recovers the original `(kind, identifier)` pair exactly,
while there is an identifier containing `/` (here `a/b`) on which the
destructuring fails — `none` models the raised `ValueError`. -/
theorem refresh_loop_key_split (endpoint secret_id : String)
    (he : ('/' : Char) ∉ endpoint.data) (hi : ('/' : Char) ∉ secret_id.data) :
    loop_split_url (mk_url endpoint secret_id) = some (endpoint, secret_id) ∧
    (('/' : Char) ∈ ("a/b" : String).data ∧
      loop_split_url (mk_url "id" "a/b") = none) := by
  refine ⟨?_, by decide, by decide⟩
  simp [loop_split_url, pySplit_mk_url endpoint secret_id he hi]

/-- Witness for C10 at the slash-free key `id/abc`. -/
theorem refresh_loop_key_split_witness :
    loop_split_url (mk_url "id" "abc") = some ("id", "abc") :=
  (refresh_loop_key_split "id" "abc" (by decide) (by decide)).1

/-! ### Substring lemmas for the stats kind classification -/

theorem startsWith_false (sep : Char) :
    ∀ pat l : List Char, sep ∈ pat → sep ∉ l →
      listStartsWith pat l = false := by
  intro pat
  induction pat with
  | nil => intro l hp _; cases hp
  | cons p ps ih =>
    intro l hp hl
    cases l with
    | nil => rfl
    | cons c cs =>
      rcases List.mem_cons.mp hp with h | h
      · have hpc : (p == c) = false := by
          refine beq_eq_false_iff_ne.mpr ?_
          intro hh
          exact hl (by simp [← hh, ← h])
        simp [listStartsWith, hpc]
      · by_cases hpc : p = c
        · have hrec := ih cs h (fun hm => hl (List.mem_cons_of_mem _ hm))
          simp [listStartsWith, hrec]
        · simp [listStartsWith, beq_eq_false_iff_ne.mpr hpc]

theorem hasSub_false (sep : Char) (pat : List Char) (hp : sep ∈ pat) :
    ∀ l : List Char, sep ∉ l → listHasSub pat l = false := by
  intro l
  induction l with
  | nil =>
    intro _
    simp [listHasSub, List.isEmpty_iff, List.ne_nil_of_mem hp]
  | cons c cs ih =>
    intro hl
    simp [listHasSub, startsWith_false sep pat _ hp hl,
      ih (fun hm => hl (List.mem_cons_of_mem _ hm))]

theorem strIn_key_of_id (i : String) (hi : ('/' : Char) ∉ i.data) :
    strIn "key/" (mk_url "id" i) = false := by
  have hd : (mk_url "id" i).data = 'i' :: 'd' :: '/' :: i.data := by
    simp [mk_url_data]
  have hrest : listHasSub ("key/".data) i.data = false :=
    hasSub_false '/' _ (by decide) i.data hi
  simp only [strIn, hd]
  simp [listHasSub, listStartsWith, hrest]

theorem strIn_id_of_id (i : String) : strIn "id/" (mk_url "id" i) = true := by
  have hd : (mk_url "id" i).data = 'i' :: 'd' :: '/' :: i.data := by
    simp [mk_url_data]
  simp only [strIn, hd]
  simp [listHasSub, listStartsWith]

theorem strIn_key_of_key (i : String) : strIn "key/" (mk_url "key" i) = true := by
  have hd : (mk_url "key" i).data = 'k' :: 'e' :: 'y' :: '/' :: i.data := by
    simp [mk_url_data]
  simp only [strIn, hd]
  simp [listHasSub, listStartsWith]

/-- Per-kind count of successfully cached entries: how many `(kind,
identifier, entry)` triples have this kind and status 200. This is what the
spec says `stats` reports per kind. -/
def countKind (k : String) (entries : List (String × String × CachedSecret)) :
    Nat :=
  (entries.filter
    (fun p => p.1 == k && p.2.2.value.status_code == 200)).length

theorem stats_foldl_shape (entries : List (String × String × CachedSecret))
    (h : ∀ p ∈ entries,
      (p.1 = "id" ∨ p.1 = "key") ∧ ('/' : Char) ∉ p.2.1.data) :
    ∀ acc : Nat × Nat,
      (entries.map (fun p => (mk_url p.1 p.2.1, p.2.2))).foldl statsStep acc =
        (acc.1 + countKind "id" entries, acc.2 + countKind "key" entries) := by
  induction entries with
  | nil => intro acc; simp [countKind]
  | cons p rest ih =>
    intro acc
    obtain ⟨k, i, cs⟩ := p
    obtain ⟨hk, hs⟩ := h ⟨k, i, cs⟩ (List.mem_cons_self _ _)
    have hrest := fun q hq => h q (List.mem_cons_of_mem _ hq)
    simp only [List.map_cons, List.foldl_cons]
    rw [ih hrest]
    rcases hk with hid | hkey
    · subst hid
      by_cases h200 : cs.value.status_code = 200
      · simp [statsStep, h200, strIn_key_of_id i hs, strIn_id_of_id,
          countKind, List.filter, h200]
        omega
      · have hb : (cs.value.status_code == 200) = false := by simp [h200]
        simp [statsStep, h200, hb, countKind, List.filter]
    · subst hkey
      by_cases h200 : cs.value.status_code = 200
      · simp [statsStep, h200, strIn_key_of_key, countKind, List.filter]
        omega
      · have hb : (cs.value.status_code == 200) = false := by simp [h200]
        simp [statsStep, h200, hb, countKind, List.filter]

/-- C5 (amended to slash-free identifiers): for any cache whose keys were
built by the client from kinds `id`/`key` and identifiers containing no
`/`, `stats` reports exactly the number of currently cached status-200
entries of each kind, each counted under its own kind only. -/
theorem stats_counts_by_kind (token : String) (hs ms : List String)
    (entries : List (String × String × CachedSecret))
    (h : ∀ p ∈ entries,
      (p.1 = "id" ∨ p.1 = "key") ∧ ('/' : Char) ∉ p.2.1.data) :
    BwscCachedClient.stats
        ⟨token, entries.map (fun p => (mk_url p.1 p.2.1, p.2.2)), hs, ms⟩ =
      ⟨countKind "id" entries, countKind "key" entries⟩ := by
  simp only [BwscCachedClient.stats]
  rw [stats_foldl_shape entries h (0, 0)]
  simp

/-- Counterexample to C5 as stated (all identifier strings): the id-kind
entry with identifier `key/x` and status 200 — cache key `id/key/x` — is
counted in the key count and not in the id count, because `stats`
classifies by substring containment and checks `"key/"` first. -/
theorem stats_counts_by_kind_cex :
    countKind "id" [("id", "key/x", ⟨⟨"v", 200⟩, 0⟩)] = 1 ∧
    BwscCachedClient.stats
        ⟨"tok", [(mk_url "id" "key/x", ⟨⟨"v", 200⟩, 0⟩)], [], []⟩ =
      ⟨0, 1⟩ := by
  constructor <;> decide

/-- Witness for C5 (amended): two status-200 entries of different kinds and
one status-404 id entry; stats reports one of each kind. -/
theorem stats_counts_by_kind_witness :
    BwscCachedClient.stats
        ⟨"tok",
         [("id", "a", CachedSecret.mk ⟨"v", 200⟩ 0),
          ("key", "b", CachedSecret.mk ⟨"w", 200⟩ 1),
          ("id", "c", CachedSecret.mk ⟨"e", 404⟩ 2)].map
           (fun p => (mk_url p.1 p.2.1, p.2.2)),
         [], []⟩ =
      ⟨1, 1⟩ := by
  have h := stats_counts_by_kind "tok" [] []
    [("id", "a", CachedSecret.mk ⟨"v", 200⟩ 0),
     ("key", "b", CachedSecret.mk ⟨"w", 200⟩ 1),
     ("id", "c", CachedSecret.mk ⟨"e", 404⟩ 2)]
    (by decide)
  exact h.trans (by decide)

/-! ### Registry-wide stats aggregation -/

theorem mgrStats_foldl_shape (clients : List (String × BwscCachedClient)) :
    ∀ acc : List (String × CacheStats) × Nat × Nat,
      clients.foldl mgrStatsStep acc =
        (acc.1 ++ clients.map (fun p => (p.1, BwscCachedClient.stats p.2)),
         acc.2.1 +
           (clients.map
             (fun p => (BwscCachedClient.stats p.2).secret_cache_size)).sum,
         acc.2.2 +
           (clients.map
             (fun p => (BwscCachedClient.stats p.2).keymap_cache_size)).sum) := by
  induction clients with
  | nil => intro acc; simp
  | cons p rest ih =>
    intro acc
    simp only [List.foldl_cons, List.map_cons]
    rw [ih]
    simp [mgrStatsStep]
    omega

/-- C8: `ClientManager.stats` reports the number of registered clients, the
per-client stats keyed by the credential digest, and totals equal to the
pointwise per-kind sum of every registered client's own `stats`. -/
theorem manager_stats_spec (m : ClientManager) :
    (ClientManager.stats m).num_clients = m.clients.length ∧
    (ClientManager.stats m).client_stats =
      m.clients.map (fun p => (p.1, BwscCachedClient.stats p.2)) ∧
    (ClientManager.stats m).total_stats =
      ⟨(m.clients.map
          (fun p => (BwscCachedClient.stats p.2).secret_cache_size)).sum,
       (m.clients.map
          (fun p => (BwscCachedClient.stats p.2).keymap_cache_size)).sum⟩ := by
  refine ⟨rfl, ?_, ?_⟩ <;> simp [ClientManager.stats, mgrStats_foldl_shape]

end Bwsc
